import Mathlib

/-
Shallow embedding of `pkg/compliance/checks/kubeapiserver_check.go` from the
datadog-agent repository: the Kubernetes API-server compliance check.  The
check is constructed from a `KubernetesResource` declaration
(`newKubeapiserverCheck`), queries the cluster dynamic client for documents
(`Run`, embedded as `runCheck`), and extracts configured fields from each
returned document into a flat key-value record (`reportResource`) that is
handed to the reporting sink.

Strings model Go strings; `KVMap` models Go's `map[string]string`
(`compliance.KVMap`) as an association list whose observable operations are
lookup, update and emptiness.  The dynamic Kubernetes client is a parameter
(`KubeClient`): its `Get`/`List` outcomes are inputs to the model, as is the
outcome of the JSON query engine `json.RunSingleOutput` (a field of
`Document`).
-/

namespace KubeapiserverCheck

/-- The metadata key constants from the source file. -/
def kubeResourceNameKey : String := "kube_resource_name"

/-- API-group metadata key constant. -/
def kubeResourceGroupKey : String := "kube_resource_group"

/-- API-version metadata key constant. -/
def kubeResourceVersionKey : String := "kube_resource_version"

/-- Namespace metadata key constant. -/
def kubeResourceNamespaceKey : String := "kube_resource_namespace"

/-- Resource-kind metadata key constant. -/
def kubeResourceKindKey : String := "kube_resource_kind"

/-- The tag `compliance.PropertyKindJSONQuery` for extraction rules. -/
def PropertyKindJSONQuery : String := "jsonQuery"

/-- One extraction rule of `kubeResource.Report` (`field` in the source):
a `Kind` tag, a `Property` query path, an optional `As` rename and an
optional literal `Value` override. -/
structure ReportedField where
  kind : String
  property : String
  as : String
  value : String
deriving DecidableEq, Repr

/-- `kubeResource.APIRequest`: the verb (`"get"` or `"list"`) and the
resource name used by `get`. -/
structure APIRequest where
  verb : String
  resourceName : String
deriving DecidableEq, Repr

/-- `compliance.KubernetesResource`: the declarative resource spec held by
the check.  `ns` embeds the Go field `Namespace`. -/
structure KubernetesResource where
  kind : String
  group : String
  version : String
  ns : String
  apiRequest : APIRequest
  report : List ReportedField
deriving DecidableEq, Repr

/-- The two construction-time failures of `newKubeapiserverCheck` (both are
`fmt.Errorf` calls in the source; the spec calls them `ConfigurationError`). -/
inductive ConfigError where
  | emptyKind
  | emptyVerb
deriving DecidableEq, Repr

/-- `newKubeapiserverCheck`: fails when `Kind` is empty, then when
`APIRequest.Verb` is empty; defaults an empty `Version` to `"v1"`; performs
no other validation. -/
def newKubeapiserverCheck (r : KubernetesResource) :
    Except ConfigError KubernetesResource :=
  if r.kind.length = 0 then Except.error ConfigError.emptyKind
  else if r.apiRequest.verb.length = 0 then Except.error ConfigError.emptyVerb
  else if r.version.length = 0 then Except.ok { r with version := "v1" }
  else Except.ok r

/-- Observer: whether `newKubeapiserverCheck` returns a check (rather than a
`ConfigurationError`). -/
def constructionSucceeds (r : KubernetesResource) : Bool :=
  match newKubeapiserverCheck r with
  | Except.ok _ => true
  | Except.error _ => false

/-- Outcome of `json.RunSingleOutput(field.Property, p.Object)`: a value with
`valueFound = true`, `valueFound = false`, or a query-engine error. -/
inductive QueryResult where
  | found (value : String)
  | notFound
  | queryError (msg : String)
deriving DecidableEq, Repr

/-- One `unstructured.Unstructured` document returned by the dynamic client:
its self-describing metadata (GroupVersionKind, namespace, name) together
with the behaviour of the JSON query engine on its object body. -/
structure Document where
  kind : String
  group : String
  version : String
  ns : String
  name : String
  query : String → QueryResult

/-- `compliance.KVMap` (`map[string]string`), as an association list. -/
abbrev KVMap := List (String × String)

/-- Go map assignment `kv[k] = v`: replaces any existing binding for `k`. -/
def kvSet (m : KVMap) (k v : String) : KVMap :=
  m.filter (fun p => p.1 != k) ++ [(k, v)]

/-- Go map lookup `kv[k]`. -/
def kvGet (m : KVMap) (k : String) : Option String :=
  (m.find? (fun p => p.1 == k)).map (fun p => p.2)

/-- The run-time error taxonomy of `Run`/`reportResource`. -/
inductive RunError where
  | invalidRequest
  | queryError (msg : String)
  | extractionError (property msg : String)
  | unsupportedRule (kind : String)
deriving DecidableEq, Repr

/-- The per-field loop of `reportResource`: for each rule, dispatch on its
`Kind` tag.  A `jsonQuery` rule whose query errors aborts with
`extractionError`; a not-found result is skipped; a found value is stored
under `field.As` (when non-empty, else `field.Property`) with value
`field.Value` (when non-empty, else the extracted value).  Any other `Kind`
tag aborts with `unsupportedRule`. -/
def extractFields (fields : List ReportedField) (p : Document) (kv : KVMap) :
    Except RunError KVMap :=
  match fields with
  | [] => Except.ok kv
  | field :: rest =>
    if field.kind = PropertyKindJSONQuery then
      match p.query field.property with
      | QueryResult.queryError msg =>
          Except.error (RunError.extractionError field.property msg)
      | QueryResult.notFound => extractFields rest p kv
      | QueryResult.found v =>
          extractFields rest p
            (kvSet kv (if 0 < field.as.length then field.as else field.property)
              (if 0 < field.value.length then field.value else v))
    else
      Except.error (RunError.unsupportedRule field.kind)

/-- The metadata-injection block of `reportResource`, executed when the
record is non-empty: the five `kube_resource_*` keys are written, in source
order, after all rule-produced pairs. -/
def injectMetadata (kv : KVMap) (p : Document) : KVMap :=
  kvSet (kvSet (kvSet (kvSet (kvSet kv kubeResourceKindKey p.kind)
    kubeResourceGroupKey p.group) kubeResourceVersionKey p.version)
    kubeResourceNamespaceKey p.ns) kubeResourceNameKey p.name

/-- `reportResource`, up to the handoff to `c.report`: evaluate every rule
into a fresh record, inject the metadata keys when the record is non-empty,
and return the record to be reported. -/
def reportResource (c : KubernetesResource) (p : Document) :
    Except RunError KVMap :=
  match extractFields c.report p [] with
  | Except.error e => Except.error e
  | Except.ok kv =>
      if 0 < kv.length then Except.ok (injectMetadata kv p) else Except.ok kv

/-- Modelled from the spec: the `baseCheck.report` sink handoff invoked as
`c.report(nil, kv)` is not part of this source tree.  Per the spec's reporter
boundary, this component only ever invokes the external sink with a non-empty
record, so an empty record is discarded and a non-empty one is appended to
the sequence of reporter calls. -/
def baseReport (reports : List KVMap) (kv : KVMap) : List KVMap :=
  if 0 < kv.length then reports ++ [kv] else reports

/-- The per-document loop of `Run`: documents are processed in order; the
first `reportResource` error terminates the run, keeping the reporter calls
already made; otherwise the record is handed to the sink. -/
def processDocs (c : KubernetesResource) (docs : List Document)
    (reports : List KVMap) : List KVMap × Option RunError :=
  match docs with
  | [] => (reports, none)
  | d :: rest =>
    match reportResource c d with
    | Except.error e => (reports, some e)
    | Except.ok kv => processDocs c rest (baseReport reports kv)

/-- The dynamic Kubernetes client (`kubeDynamic.Interface`), restricted to
the two operations the check uses.  Arguments are group, resource kind,
version, namespace and (for `Get`) the resource name; results model the
`(resource, err)` returns of the client calls. -/
structure KubeClient where
  getResource : String → String → String → String → String → Except String Document
  listResources : String → String → String → String → Except String (List Document)

/-- The verb dispatch of `Run` (the `switch c.kubeResource.APIRequest.Verb`
block): `"get"` requires a non-empty resource name and fetches a single
document; `"list"` lists a collection; any other verb has no `case` and
leaves the `resources` slice nil.  Client errors are wrapped as
`queryError`. -/
def fetchResources (client : KubeClient) (c : KubernetesResource) :
    Except RunError (List Document) :=
  if c.apiRequest.verb = "get" then
    if c.apiRequest.resourceName.length = 0 then
      Except.error RunError.invalidRequest
    else
      match client.getResource c.group c.kind c.version c.ns
          c.apiRequest.resourceName with
      | Except.error msg => Except.error (RunError.queryError msg)
      | Except.ok d => Except.ok [d]
  else if c.apiRequest.verb = "list" then
    match client.listResources c.group c.kind c.version c.ns with
    | Except.error msg => Except.error (RunError.queryError msg)
    | Except.ok ds => Except.ok ds
  else
    Except.ok []

/-- `Run`: fetch the resources, then process each document in order.  A fetch
error terminates the run with no reporter calls.  The result is the sequence
of reporter calls made together with the run's terminal error, if any. -/
def runCheck (client : KubeClient) (c : KubernetesResource) :
    List KVMap × Option RunError :=
  match fetchResources client c with
  | Except.error e => ([], some e)
  | Except.ok docs => processDocs c docs []

/-! ### Concrete fixtures used by the witnesses -/

/-- A single `jsonQuery` rule on path `"a"`, no rename, no override. -/
def sampleRule : ReportedField :=
  { kind := "jsonQuery", property := "a", as := "", value := "" }

/-- A document whose path `"a"` resolves to `"x"`; everything else is
not found. -/
def goodDoc : Document :=
  { kind := "Pod", group := "", version := "v1", ns := "default",
    name := "nginx",
    query := fun s => if s = "a" then QueryResult.found "x"
      else QueryResult.notFound }

/-- A document on which every query errors. -/
def badDoc : Document :=
  { kind := "Pod", group := "", version := "v1", ns := "default",
    name := "broken", query := fun _ => QueryResult.queryError "boom" }

/-- A document on which every query reports not-found. -/
def emptyDoc : Document :=
  { kind := "Pod", group := "", version := "v1", ns := "default",
    name := "bare", query := fun _ => QueryResult.notFound }

/-- A `list`-verb spec carrying `sampleRule`. -/
def sampleSpec : KubernetesResource :=
  { kind := "pods", group := "", version := "v1", ns := "default",
    apiRequest := { verb := "list", resourceName := "" },
    report := [sampleRule] }

/-- The spec's override example: `as = "foo"` and `value = "bar"` both set. -/
def overrideRule : ReportedField :=
  { kind := "jsonQuery", property := "a", as := "foo", value := "bar" }

/-- A document whose path `"a"` resolves to `"baz"`. -/
def bazDoc : Document :=
  { kind := "Pod", group := "", version := "v1", ns := "default",
    name := "web",
    query := fun s => if s = "a" then QueryResult.found "baz"
      else QueryResult.notFound }

/-- `sampleSpec` carrying `overrideRule`. -/
def overrideSpec : KubernetesResource :=
  { sampleSpec with report := [overrideRule] }

/-- A rule whose output key collides with the name metadata key. -/
def nameCollisionRule : ReportedField :=
  { kind := "jsonQuery", property := "a", as := kubeResourceNameKey,
    value := "attacker" }

/-- `sampleSpec` carrying `nameCollisionRule`. -/
def nameCollisionSpec : KubernetesResource :=
  { sampleSpec with report := [nameCollisionRule] }

/-- A rule with the unsupported kind tag `"exec"`. -/
def execRule : ReportedField :=
  { kind := "exec", property := "a", as := "", value := "" }

/-- `sampleSpec` carrying the unsupported `execRule`. -/
def execSpec : KubernetesResource := { sampleSpec with report := [execRule] }

/-- A client on which every call fails (never consulted in the witnesses
that use it). -/
def failClient : KubeClient :=
  { getResource := fun _ _ _ _ _ => Except.error "unreachable",
    listResources := fun _ _ _ _ => Except.error "unreachable" }

/-- A client whose `List` returns a fixed document collection. -/
def listClient (docs : List Document) : KubeClient :=
  { getResource := fun _ _ _ _ _ => Except.error "unreachable",
    listResources := fun _ _ _ _ => Except.ok docs }

/-! ### Helper lemmas about the map operations and the loops -/

theorem find?_filter_ne (m : KVMap) (k : String) :
    (m.filter (fun p => p.1 != k)).find? (fun p => p.1 == k) = none := by
  induction m with
  | nil => rfl
  | cons p t ih =>
    by_cases h : p.1 = k
    · simp [List.filter_cons, h, ih]
    · have h1 : (p.1 == k) = false := by
        rw [beq_eq_false_iff_ne]
        exact h
      simp [List.filter_cons, h, List.find?, h1, ih]

theorem kvGet_kvSet_same (m : KVMap) (k v : String) :
    kvGet (kvSet m k v) k = some v := by
  unfold kvGet kvSet
  rw [List.find?_append, find?_filter_ne]
  simp [List.find?]

theorem find?_filter_other (m : KVMap) (k k' : String) (h : k' ≠ k) :
    (m.filter (fun p => p.1 != k)).find? (fun p => p.1 == k') =
      m.find? (fun p => p.1 == k') := by
  induction m with
  | nil => rfl
  | cons p t ih =>
    by_cases hp : p.1 = k
    · have h2 : (p.1 != k) = false := by simp [hp]
      have h1 : (p.1 == k') = false := by
        rw [beq_eq_false_iff_ne]
        intro hk
        exact h (hk ▸ hp)
      simp [List.filter_cons, h2, List.find?, h1, ih]
    · have h2 : (p.1 != k) = true := by simp [hp]
      by_cases hq : p.1 = k'
      · have h1 : (p.1 == k') = true := by simp [hq]
        simp [List.filter_cons, h2, List.find?, h1]
      · have h1 : (p.1 == k') = false := by
          rw [beq_eq_false_iff_ne]
          exact hq
        simp [List.filter_cons, h2, List.find?, h1, ih]

theorem kvGet_kvSet_other (m : KVMap) (k k' v : String) (h : k' ≠ k) :
    kvGet (kvSet m k v) k' = kvGet m k' := by
  unfold kvGet kvSet
  rw [List.find?_append, find?_filter_other m k k' h]
  cases hf : m.find? (fun p => p.1 == k') with
  | none =>
    have hkk : (k == k') = false := by
      rw [beq_eq_false_iff_ne]
      exact Ne.symm h
    simp [List.find?, hkk]
  | some p => simp

theorem kvSet_length_pos (m : KVMap) (k v : String) :
    0 < (kvSet m k v).length := by
  simp [kvSet]

theorem kvGet_injectMetadata (kv : KVMap) (p : Document) :
    kvGet (injectMetadata kv p) kubeResourceKindKey = some p.kind
    ∧ kvGet (injectMetadata kv p) kubeResourceGroupKey = some p.group
    ∧ kvGet (injectMetadata kv p) kubeResourceVersionKey = some p.version
    ∧ kvGet (injectMetadata kv p) kubeResourceNamespaceKey = some p.ns
    ∧ kvGet (injectMetadata kv p) kubeResourceNameKey = some p.name := by
  unfold injectMetadata
  refine ⟨?_, ?_, ?_, ?_, ?_⟩
  · rw [kvGet_kvSet_other _ _ _ _ (by decide), kvGet_kvSet_other _ _ _ _ (by decide),
      kvGet_kvSet_other _ _ _ _ (by decide), kvGet_kvSet_other _ _ _ _ (by decide),
      kvGet_kvSet_same]
  · rw [kvGet_kvSet_other _ _ _ _ (by decide), kvGet_kvSet_other _ _ _ _ (by decide),
      kvGet_kvSet_other _ _ _ _ (by decide), kvGet_kvSet_same]
  · rw [kvGet_kvSet_other _ _ _ _ (by decide), kvGet_kvSet_other _ _ _ _ (by decide),
      kvGet_kvSet_same]
  · rw [kvGet_kvSet_other _ _ _ _ (by decide), kvGet_kvSet_same]
  · rw [kvGet_kvSet_same]

theorem mem_baseReport (reports : List KVMap) (kv kv' : KVMap)
    (h : kv ∈ baseReport reports kv') :
    kv ∈ reports ∨ (kv = kv' ∧ 0 < kv'.length) := by
  unfold baseReport at h
  by_cases hl : 0 < kv'.length
  · simp [hl] at h
    rcases h with h | h
    · exact Or.inl h
    · exact Or.inr ⟨h, hl⟩
  · simp [hl] at h
    exact Or.inl h

theorem mem_processDocs_reports (c : KubernetesResource) (docs : List Document)
    (acc : List KVMap) (kv : KVMap)
    (h : kv ∈ (processDocs c docs acc).1) : kv ∈ acc ∨ kv ≠ [] := by
  induction docs generalizing acc with
  | nil => exact Or.inl h
  | cons d rest ih =>
    unfold processDocs at h
    cases hr : reportResource c d with
    | error e =>
      rw [hr] at h
      exact Or.inl h
    | ok kv' =>
      rw [hr] at h
      rcases ih (baseReport acc kv') h with hm | hm
      · rcases mem_baseReport acc kv kv' hm with hm' | hm'
        · exact Or.inl hm'
        · refine Or.inr ?_
          rcases hm' with ⟨he, hl⟩
          subst he
          intro hnil
          rw [hnil] at hl
          simp at hl
      · exact Or.inr hm

theorem string_length_eq_zero (s : String) : s.length = 0 ↔ s = "" := by
  constructor
  · intro h
    cases s with
    | mk data =>
      have hdata : data = [] := List.length_eq_zero.mp h
      rw [hdata]
  · intro h
    rw [h]
    rfl

theorem length_ne_zero_of_ne_empty (s : String) (h : s ≠ "") :
    ¬ s.length = 0 :=
  fun hl => h ((string_length_eq_zero s).mp hl)

theorem newCheck_ok_of_nonempty (r : KubernetesResource)
    (hk : r.kind ≠ "") (hv : r.apiRequest.verb ≠ "") :
    ∃ c, newKubeapiserverCheck r = Except.ok c := by
  have hk := length_ne_zero_of_ne_empty _ hk
  have hv := length_ne_zero_of_ne_empty _ hv
  by_cases hver : r.version.length = 0
  · exact ⟨{ r with version := "v1" },
      by simp [newKubeapiserverCheck, hk, hv, hver]⟩
  · exact ⟨r, by simp [newKubeapiserverCheck, hk, hv, hver]⟩

theorem constructionSucceeds_of_nonempty (r : KubernetesResource)
    (hk : r.kind ≠ "") (hv : r.apiRequest.verb ≠ "") :
    constructionSucceeds r = true := by
  rcases newCheck_ok_of_nonempty r hk hv with ⟨c, hc⟩
  unfold constructionSucceeds
  rw [hc]

/-! ### Claim theorems -/

/-- C6: construction fails with a `ConfigurationError` when `kind` is empty,
fails with a `ConfigurationError` when `apiRequest.verb` is empty (with
`emptyKind` reported first when both are empty), and succeeds whenever both
are non-empty, regardless of the other fields. -/
theorem construction_validates_kind_and_verb (r : KubernetesResource) :
    (r.kind = "" → newKubeapiserverCheck r = Except.error ConfigError.emptyKind)
    ∧ (r.kind ≠ "" → r.apiRequest.verb = "" →
        newKubeapiserverCheck r = Except.error ConfigError.emptyVerb)
    ∧ (r.kind ≠ "" → r.apiRequest.verb ≠ "" →
        constructionSucceeds r = true) := by
  refine ⟨?_, ?_, fun hk hv => constructionSucceeds_of_nonempty r hk hv⟩
  · intro hk
    simp [newKubeapiserverCheck, hk]
  · intro hk hv
    have hv' : r.apiRequest.verb.length = 0 := by
      rw [string_length_eq_zero]
      exact hv
    have hk' := length_ne_zero_of_ne_empty _ hk
    simp [newKubeapiserverCheck, hk', hv']

/-- Witness for C6 at concrete resource declarations. -/
theorem construction_validates_kind_and_verb_witness :
    newKubeapiserverCheck
        { kind := "", group := "", version := "", ns := "",
          apiRequest := { verb := "list", resourceName := "" }, report := [] }
      = Except.error ConfigError.emptyKind
    ∧ newKubeapiserverCheck
        { kind := "pods", group := "", version := "", ns := "",
          apiRequest := { verb := "", resourceName := "" }, report := [] }
      = Except.error ConfigError.emptyVerb
    ∧ constructionSucceeds sampleSpec = true :=
  ⟨(construction_validates_kind_and_verb _).1 rfl,
   (construction_validates_kind_and_verb _).2.1 (by decide) rfl,
   (construction_validates_kind_and_verb sampleSpec).2.2
     (by decide) (by decide)⟩

/-- C7: for declarations with non-empty `kind` and `verb`, construction
succeeds; an empty `version` is defaulted to `"v1"` and a non-empty one is
left unchanged, so the constructed check's `version` is never empty. -/
theorem version_defaulted_to_v1 (r : KubernetesResource) :
    (r.kind ≠ "" → r.apiRequest.verb ≠ "" → r.version = "" →
        newKubeapiserverCheck r = Except.ok { r with version := "v1" })
    ∧ (r.kind ≠ "" → r.apiRequest.verb ≠ "" → r.version ≠ "" →
        newKubeapiserverCheck r = Except.ok r)
    ∧ (∀ c, newKubeapiserverCheck r = Except.ok c → c.version ≠ "") := by
  refine ⟨?_, ?_, ?_⟩
  · intro hk hv hver
    have hk := length_ne_zero_of_ne_empty _ hk
    have hv := length_ne_zero_of_ne_empty _ hv
    simp [newKubeapiserverCheck, hk, hv, hver]
  · intro hk hv hver
    have hk := length_ne_zero_of_ne_empty _ hk
    have hv := length_ne_zero_of_ne_empty _ hv
    have hver' := length_ne_zero_of_ne_empty _ hver
    simp [newKubeapiserverCheck, hk, hv, hver']
  · intro c hc
    unfold newKubeapiserverCheck at hc
    by_cases hk : r.kind.length = 0
    · simp [hk] at hc
    · by_cases hv : r.apiRequest.verb.length = 0
      · simp [hk, hv] at hc
      · by_cases hver : r.version.length = 0
        · simp [hk, hv, hver] at hc
          rw [← hc]
          show ("v1" : String) ≠ ""
          decide
        · simp [hk, hv, hver] at hc
          rw [← hc]
          intro hcon
          rw [hcon] at hver
          exact hver rfl

/-- Witness for C7: empty version becomes `"v1"`, non-empty stays. -/
theorem version_defaulted_to_v1_witness :
    newKubeapiserverCheck
        { kind := "pods", group := "", version := "", ns := "",
          apiRequest := { verb := "list", resourceName := "" }, report := [] }
      = Except.ok
        { kind := "pods", group := "", version := "v1", ns := "",
          apiRequest := { verb := "list", resourceName := "" }, report := [] }
    ∧ newKubeapiserverCheck sampleSpec = Except.ok sampleSpec
    ∧ sampleSpec.version ≠ "" :=
  ⟨(version_defaulted_to_v1 _).1 (by decide) (by decide) rfl,
   (version_defaulted_to_v1 sampleSpec).2.1
     (by decide) (by decide) (by decide),
   (version_defaulted_to_v1 sampleSpec).2.2 sampleSpec rfl⟩

/-- C8: a rule whose `kind` tag is not `jsonQuery` is not rejected at
construction (construction succeeds for any `report` list once `kind` and
`verb` are non-empty), but evaluating it against any document fails with
`UnsupportedRuleError`. -/
theorem unsupported_rule_kind_fails_at_evaluation (r : KubernetesResource)
    (field : ReportedField) (rest : List ReportedField) (p : Document)
    (kv : KVMap) (hk : r.kind ≠ "") (hv : r.apiRequest.verb ≠ "")
    (hf : field.kind ≠ PropertyKindJSONQuery) :
    constructionSucceeds r = true
    ∧ extractFields (field :: rest) p kv =
        Except.error (RunError.unsupportedRule field.kind) := by
  refine ⟨constructionSucceeds_of_nonempty r hk hv, ?_⟩
  simp [extractFields, hf]

/-- Witness for C8 at a concrete `"exec"`-kind rule. -/
theorem unsupported_rule_kind_fails_at_evaluation_witness :
    constructionSucceeds execSpec = true
    ∧ extractFields [execRule] goodDoc [] =
      Except.error (RunError.unsupportedRule execRule.kind) :=
  unsupported_rule_kind_fails_at_evaluation execSpec execRule [] goodDoc []
    (by decide) (by decide) (by decide)

/-- C9: a `jsonQuery` rule whose query reports not-found contributes no
key-value pair: evaluation continues with the remaining rules unchanged, so
not-found neither errors nor aborts the run. -/
theorem notFound_rule_is_skipped (field : ReportedField)
    (rest : List ReportedField) (p : Document) (kv : KVMap)
    (hk : field.kind = PropertyKindJSONQuery)
    (hq : p.query field.property = QueryResult.notFound) :
    extractFields (field :: rest) p kv = extractFields rest p kv := by
  simp [extractFields, hk, hq]

/-- Witness for C9: the sample rule on a document where nothing resolves. -/
theorem notFound_rule_is_skipped_witness :
    extractFields [sampleRule] emptyDoc [] = extractFields [] emptyDoc [] :=
  notFound_rule_is_skipped sampleRule [] emptyDoc [] rfl rfl

/-- C3: for a verb that is neither `"get"` nor `"list"` (but non-empty, so
construction succeeded), `Run` returns success with zero reporter calls;
the result is the same for every client, so no API call is consulted. -/
theorem unknown_verb_yields_empty_success (client : KubeClient)
    (c : KubernetesResource)
    (h1 : c.apiRequest.verb ≠ "get") (h2 : c.apiRequest.verb ≠ "list")
    (h3 : c.apiRequest.verb ≠ "") :
    runCheck client c = ([], none) := by
  simp [runCheck, fetchResources, h1, h2, processDocs]

/-- Witness for C3 at verb `"watch"` against a client whose calls all fail:
the run still succeeds with no reports. -/
theorem unknown_verb_yields_empty_success_witness :
    runCheck failClient
        { sampleSpec with apiRequest := { verb := "watch", resourceName := "" } }
      = ([], none) :=
  unknown_verb_yields_empty_success failClient
    { sampleSpec with apiRequest := { verb := "watch", resourceName := "" } }
    (by decide) (by decide) (by decide)

/-- C5: verb `"get"` with an empty `resourceName` fails with
`InvalidRequestError` before the API fetch (the result is the same for every
client) and makes zero reporter calls. -/
theorem get_without_name_fails (client : KubeClient)
    (c : KubernetesResource) (hv : c.apiRequest.verb = "get")
    (hn : c.apiRequest.resourceName = "") :
    runCheck client c = ([], some RunError.invalidRequest) := by
  have hn' : c.apiRequest.resourceName.length = 0 := by
    rw [string_length_eq_zero]
    exact hn
  simp [runCheck, fetchResources, hv, hn']

/-- Witness for C5 against a client whose calls all fail: the outcome is
`invalidRequest`, not the client's error. -/
theorem get_without_name_fails_witness :
    runCheck failClient
        { sampleSpec with apiRequest := { verb := "get", resourceName := "" } }
      = ([], some RunError.invalidRequest) :=
  get_without_name_fails failClient
    { sampleSpec with apiRequest := { verb := "get", resourceName := "" } }
    (by decide) (by decide)

/-- C4: a resolving `jsonQuery` rule stores its pair under key `rule.as`
(when non-empty, else `rule.property`) with value `rule.value` (when
non-empty, else the extracted value); and any non-empty record returned by
`reportResource` carries the five metadata keys, bound to the document's
own kind, group, version, namespace and name. -/
theorem jsonQuery_key_value_selection (field : ReportedField)
    (rest : List ReportedField) (p : Document) (kv : KVMap) (v : String)
    (c : KubernetesResource)
    (hk : field.kind = PropertyKindJSONQuery)
    (hq : p.query field.property = QueryResult.found v) :
    extractFields (field :: rest) p kv =
      extractFields rest p
        (kvSet kv (if 0 < field.as.length then field.as else field.property)
          (if 0 < field.value.length then field.value else v))
    ∧ (∀ kv', reportResource c p = Except.ok kv' → kv' ≠ [] →
        kvGet kv' kubeResourceKindKey = some p.kind
        ∧ kvGet kv' kubeResourceGroupKey = some p.group
        ∧ kvGet kv' kubeResourceVersionKey = some p.version
        ∧ kvGet kv' kubeResourceNamespaceKey = some p.ns
        ∧ kvGet kv' kubeResourceNameKey = some p.name) := by
  constructor
  · simp [extractFields, hk, hq]
  · intro kv' hr hne
    unfold reportResource at hr
    cases he : extractFields c.report p [] with
    | error e =>
      rw [he] at hr
      exact absurd hr (by simp)
    | ok kv0 =>
      rw [he] at hr
      by_cases hl : 0 < kv0.length
      · simp [hl] at hr
        rw [← hr]
        exact kvGet_injectMetadata kv0 p
      · simp [hl] at hr
        have h0 : kv0 = [] :=
          List.length_eq_zero.mp (Nat.eq_zero_of_not_pos hl)
        rw [h0] at hr
        exact absurd hr.symm hne

/-- Witness for C4: the spec's example, where `foo = "bar"` wins over the
extracted `"baz"`, and the metadata keys resolve to the document's own
coordinates. -/
theorem jsonQuery_key_value_selection_witness :
    extractFields [overrideRule] bazDoc [] =
      extractFields [] bazDoc (kvSet [] "foo" "bar")
    ∧ kvGet (injectMetadata (kvSet [] "foo" "bar") bazDoc)
        kubeResourceNameKey = some "web" := by
  have h := jsonQuery_key_value_selection overrideRule [] bazDoc [] "baz"
    overrideSpec rfl rfl
  exact ⟨h.1,
    (h.2 (injectMetadata (kvSet [] "foo" "bar") bazDoc) rfl
      (by decide)).2.2.2.2⟩

/-- C10: after metadata injection, looking up any of the five metadata keys
returns the document's own coordinate, even when a rule had stored a value
under that key beforehand (the injection, performed last into the same map,
overwrites it); and `reportResource` on a non-empty extracted record indeed
returns the metadata-injected map. -/
theorem metadata_overwrites_rule_keys (c : KubernetesResource) (p : Document)
    (kv : KVMap) (k w : String)
    (hset : kvGet kv k = some w)
    (hmeta : k = kubeResourceNameKey ∨ k = kubeResourceGroupKey ∨
      k = kubeResourceVersionKey ∨ k = kubeResourceNamespaceKey ∨
      k = kubeResourceKindKey) :
    kvGet (injectMetadata kv p) k =
      some (if k = kubeResourceNameKey then p.name
        else if k = kubeResourceGroupKey then p.group
        else if k = kubeResourceVersionKey then p.version
        else if k = kubeResourceNamespaceKey then p.ns
        else p.kind)
    ∧ (extractFields c.report p [] = Except.ok kv → kv ≠ [] →
        reportResource c p = Except.ok (injectMetadata kv p)) := by
  constructor
  · rcases hmeta with h | h | h | h | h <;> subst h
    · rw [if_pos rfl]
      exact (kvGet_injectMetadata kv p).2.2.2.2
    · rw [if_neg (by decide), if_pos rfl]
      exact (kvGet_injectMetadata kv p).2.1
    · rw [if_neg (by decide), if_neg (by decide), if_pos rfl]
      exact (kvGet_injectMetadata kv p).2.2.1
    · rw [if_neg (by decide), if_neg (by decide), if_neg (by decide),
        if_pos rfl]
      exact (kvGet_injectMetadata kv p).2.2.2.1
    · rw [if_neg (by decide), if_neg (by decide), if_neg (by decide),
        if_neg (by decide)]
      exact (kvGet_injectMetadata kv p).1
  · intro he hne
    have hl : 0 < kv.length := by
      cases kv with
      | nil => exact absurd rfl hne
      | cons a t => simp
    simp [reportResource, he, hl]

/-- Witness for C10: a rule writes `"attacker"` under the name metadata key;
the reported record nevertheless maps that key to the document's own name. -/
theorem metadata_overwrites_rule_keys_witness :
    kvGet (injectMetadata (kvSet [] kubeResourceNameKey "attacker") goodDoc)
        kubeResourceNameKey = some goodDoc.name
    ∧ reportResource nameCollisionSpec goodDoc =
        Except.ok
          (injectMetadata (kvSet [] kubeResourceNameKey "attacker") goodDoc) := by
  have h := metadata_overwrites_rule_keys nameCollisionSpec goodDoc
    (kvSet [] kubeResourceNameKey "attacker") kubeResourceNameKey "attacker"
    rfl (Or.inl rfl)
  exact ⟨h.1, h.2 rfl (by decide)⟩

/-- C1: a document whose extraction yields an empty record leaves the run's
reporter-call sequence unchanged, and every record in the reporter-call
sequence of any run is non-empty. -/
theorem empty_record_not_reported (c : KubernetesResource)
    (client : KubeClient) (p : Document) (rest : List Document)
    (acc : List KVMap)
    (h : extractFields c.report p [] = Except.ok []) :
    processDocs c (p :: rest) acc = processDocs c rest acc
    ∧ ∀ kv ∈ (runCheck client c).1, kv ≠ [] := by
  constructor
  · have hr : reportResource c p = Except.ok [] := by
      simp [reportResource, h]
    simp [processDocs, hr, baseReport]
  · intro kv hkv
    unfold runCheck at hkv
    cases hf : fetchResources client c with
    | error e =>
      rw [hf] at hkv
      simp at hkv
    | ok docs =>
      rw [hf] at hkv
      rcases mem_processDocs_reports c docs [] kv hkv with hm | hm
      · simp at hm
      · exact hm

/-- Witness for C1: in a two-document list whose first document resolves no
rule, that document changes nothing, and the run's reporter calls contain no
empty record. -/
theorem empty_record_not_reported_witness :
    processDocs sampleSpec (emptyDoc :: goodDoc :: []) [] =
      processDocs sampleSpec (goodDoc :: []) []
    ∧ ¬ ([] : KVMap) ∈
        (runCheck (listClient (emptyDoc :: goodDoc :: [])) sampleSpec).1 := by
  have h := empty_record_not_reported sampleSpec
    (listClient (emptyDoc :: goodDoc :: [])) emptyDoc (goodDoc :: []) [] rfl
  exact ⟨h.1, fun hm => h.2 [] hm rfl⟩

theorem processDocs_cons (c : KubernetesResource) (d : Document)
    (rest : List Document) (acc : List KVMap) :
    processDocs c (d :: rest) acc =
      match reportResource c d with
      | Except.error e => (acc, some e)
      | Except.ok kv => processDocs c rest (baseReport acc kv) := rfl

theorem processDocs_append_error (c : KubernetesResource)
    (docs1 : List Document) (p : Document) (docs2 : List Document)
    (acc : List KVMap) (e : RunError)
    (hok : (processDocs c docs1 acc).2 = none)
    (herr : reportResource c p = Except.error e) :
    processDocs c (docs1 ++ p :: docs2) acc =
      ((processDocs c docs1 acc).1, some e) := by
  induction docs1 generalizing acc with
  | nil => simp [processDocs, herr]
  | cons d t ih =>
    cases hr : reportResource c d with
    | error e' =>
      rw [processDocs_cons, hr] at hok
      simp at hok
    | ok kv =>
      have hstep : processDocs c (d :: t) acc =
          processDocs c t (baseReport acc kv) := by
        rw [processDocs_cons, hr]
      rw [hstep] at hok
      calc processDocs c ((d :: t) ++ p :: docs2) acc
          = processDocs c (t ++ p :: docs2) (baseReport acc kv) := by
            rw [List.cons_append, processDocs_cons, hr]
        _ = ((processDocs c t (baseReport acc kv)).1, some e) :=
            ih (baseReport acc kv) hok
        _ = ((processDocs c (d :: t) acc).1, some e) := by rw [hstep]

/-- C2: when every document before position `i` reports successfully and
extraction fails on document `i`, the run terminates with that error, the
reporter calls already made for the earlier documents stand, and neither
document `i` nor any later document produces a reporter call (the outcome
does not depend on the later documents). -/
theorem extraction_error_aborts_run (c : KubernetesResource)
    (docs1 : List Document) (p : Document) (docs2 : List Document)
    (acc : List KVMap) (e : RunError)
    (hok : (processDocs c docs1 acc).2 = none)
    (herr : reportResource c p = Except.error e) :
    processDocs c (docs1 ++ p :: docs2) acc =
      ((processDocs c docs1 acc).1, some e)
    ∧ (∀ client, fetchResources client c = Except.ok (docs1 ++ p :: docs2) →
        (processDocs c docs1 []).2 = none →
        runCheck client c = ((processDocs c docs1 []).1, some e)) := by
  refine ⟨processDocs_append_error c docs1 p docs2 acc e hok herr, ?_⟩
  intro client hf hok0
  unfold runCheck
  rw [hf]
  exact processDocs_append_error c docs1 p docs2 [] e hok0 herr

/-- Witness for C2: a three-document list where the first extracts, the
second's query errors and the third is never reached; exactly the first
document's record is reported, and the run errors. -/
theorem extraction_error_aborts_run_witness :
    processDocs sampleSpec (goodDoc :: badDoc :: emptyDoc :: []) [] =
      ((processDocs sampleSpec (goodDoc :: []) []).1,
        some (RunError.extractionError "a" "boom"))
    ∧ runCheck (listClient (goodDoc :: badDoc :: emptyDoc :: [])) sampleSpec =
      ((processDocs sampleSpec (goodDoc :: []) []).1,
        some (RunError.extractionError "a" "boom")) := by
  have h := extraction_error_aborts_run sampleSpec (goodDoc :: []) badDoc
    (emptyDoc :: []) [] (RunError.extractionError "a" "boom") rfl rfl
  exact ⟨h.1, h.2 (listClient (goodDoc :: badDoc :: emptyDoc :: [])) rfl rfl⟩

end KubeapiserverCheck
